import Mathlib

/-!
Verification of the Scrum-Sprint-Runner task/sprint state model.

The definitions below are a shallow embedding of the state model and its
derived views from `src/App.tsx` (with the types from `src/types.ts` and the
AI-gateway boundary from `src/services/geminiService.ts`):

* `Task`, `ColumnId`, `Attachment`, `Sprint` — the data model.
* `tasksByColumn` — the per-column board projection (App.tsx, `tasksByColumn`
  memo): a JS `reduce` building a record keyed by column; a key is created
  only when the first task of that column is pushed.
* `columnTasks` — the consumer-side lookup `tasksByColumn[column.id] || []`.
* `sprintDurationDays`, `burndownData` — the burndown calculator; dates are
  epoch milliseconds, JS float arithmetic over integer-valued points is
  modelled exactly over `ℚ`.
* `moveTask`, `handleAddTask`, `addTask`, `handleUpdateTask`,
  `handleDeleteTask`, `handleUpdateSprint` — the state mutators.
* `analyzeTaskAttachments` — the control flow of the attachment-analysis
  gateway call up to the external request.
-/

namespace ScrumBoard

/-- ColumnId from `src/types.ts`: the five-lane variant. -/
inductive ColumnId where
  | backlog
  | todo
  | inProgress
  | blocked
  | done
deriving DecidableEq, Repr

/-- Attachment from `src/types.ts`: `data` is a base64 data-URI string. -/
structure Attachment where
  name : String
  mime : String
  data : String
deriving DecidableEq, Repr

/-- Task from `src/types.ts`; `points` is optional in the code
(`task.points || 0` at use sites), modelled as `Option Nat`. -/
structure Task where
  id : String
  column : ColumnId
  title : String
  description : String
  points : Option Nat := none
  attachments : List Attachment := []
deriving DecidableEq, Repr

/-- Sprint from `src/types.ts`; dates are epoch milliseconds. -/
structure Sprint where
  id : String
  name : String
  startMs : Int
  endMs : Int
  goal : String
deriving DecidableEq, Repr

/-- The `tasksByColumn` memo of App.tsx: a `reduce` over the task array that
pushes each task onto the entry of its column, creating the entry at first
use. A column no task belongs to has no entry (`none`). -/
def tasksByColumn (tasks : List Task) : ColumnId → Option (List Task) :=
  tasks.foldl
    (fun acc task => fun c =>
      if task.column = c then some ((acc c).getD [] ++ [task]) else acc c)
    (fun _ => none)

/-- The lookup `tasksByColumn[column.id] || []` used when rendering each
kanban column in App.tsx. -/
def columnTasks (tasks : List Task) (c : ColumnId) : List Task :=
  (tasksByColumn tasks c).getD []

/-- The `sprintDurationDays` memo of App.tsx:
`Math.ceil(Math.abs(endDate - startDate) / (1000*60*60*24))`, with the date
difference in integer milliseconds. Ceiling division of the natural absolute
difference by 86400000 is expressed as `(n + 86399999) / 86400000`. -/
def sprintDurationDays (s : Sprint) : Nat :=
  ((s.endMs - s.startMs).natAbs + 86399999) / 86400000

/-- `totalPoints` from the `burndownData` memo of App.tsx: the sum of
`task.points || 0` over `tasks.filter(t => t.column !== 'backlog')`. -/
def totalPoints (tasks : List Task) : Nat :=
  (tasks.filter (fun t => t.column ≠ ColumnId.backlog)).foldl
    (fun sum task => sum + task.points.getD 0) 0

/-- `completedPoints` from the loop body of the `burndownData` memo: the sum
of `task.points || 0` over `tasks.filter(t => t.column === 'done')`. -/
def completedPoints (tasks : List Task) : Nat :=
  (tasks.filter (fun t => t.column = ColumnId.done)).foldl
    (fun sum task => sum + task.points.getD 0) 0

/-- `pointsPerDay` from the `burndownData` memo:
`totalPoints > 0 && sprintDurationDays > 0 ? totalPoints / sprintDurationDays : 0`,
a JS float division modelled exactly in `ℚ`. -/
def pointsPerDay (tasks : List Task) (d : Nat) : ℚ :=
  if 0 < totalPoints tasks ∧ 0 < d then (totalPoints tasks : ℚ) / d else 0

/-- One entry of the burndown chart series. -/
structure BurndownPoint where
  day : Nat
  remaining : Int
  ideal : ℚ
deriving DecidableEq, Repr

/-- The `ideal` value pushed for day `i` in the `burndownData` loop:
`Math.max(0, Math.round((totalPoints - pointsPerDay * i) * 10) / 10)`.
Mathlib `round` is `⌊x + 1/2⌋`, exactly `Math.round`. -/
def idealValue (tp : Nat) (ppd : ℚ) (i : Nat) : ℚ :=
  max 0 (((round (((tp : ℚ) - ppd * (i : ℚ)) * 10) : ℤ) : ℚ) / 10)

/-- The `burndownData` memo of App.tsx: the day-0 point
`{day: 0, remaining: totalPoints, ideal: totalPoints}` followed by one point
per day `i = 1 .. sprintDurationDays`, with
`remaining = totalPoints - completedPoints` and `ideal` as in `idealValue`. -/
def burndownData (tasks : List Task) (s : Sprint) : List BurndownPoint :=
  { day := 0, remaining := (totalPoints tasks : Int),
    ideal := (totalPoints tasks : ℚ) } ::
  (List.range (sprintDurationDays s)).map (fun k =>
    { day := k + 1,
      remaining := (totalPoints tasks : Int) - (completedPoints tasks : Int),
      ideal := idealValue (totalPoints tasks)
        (pointsPerDay tasks (sprintDurationDays s)) (k + 1) })

/-- The `moveTask` callback of App.tsx: find the first task with the given
id and set its `column` to the target column in place; no match, no change. -/
def moveTask (tasks : List Task) (taskId : String) (targetColumn : ColumnId) :
    List Task :=
  match tasks with
  | [] => []
  | t :: rest =>
    if t.id = taskId then { t with column := targetColumn } :: rest
    else t :: moveTask rest taskId targetColumn

/-- The `handleAddTask` callback of App.tsx: push a new task with the
freshly generated id, `column = backlog` and empty attachments. -/
def handleAddTask (tasks : List Task) (newId : String)
    (title description : String) (points : Option Nat) : List Task :=
  tasks ++ [{ id := newId, column := ColumnId.backlog, title := title,
              description := description, points := points,
              attachments := [] }]

/-- JS `String.prototype.trim`: strip leading and trailing whitespace. -/
def jsTrim (s : String) : String :=
  ⟨((s.data.dropWhile Char.isWhitespace).reverse.dropWhile
      Char.isWhitespace).reverse⟩

/-- AddTask as invoked through the UI: `NewTaskModal.handleSubmit` rejects
when `title.trim()` or `description.trim()` is empty (the submission returns
without calling `onAddTask`); otherwise `handleAddTask` appends the task. -/
def addTask (tasks : List Task) (newId : String)
    (title description : String) (points : Option Nat) : List Task :=
  if jsTrim title = "" ∨ jsTrim description = "" then tasks
  else handleAddTask tasks newId title description points

/-- The `handleUpdateTask` callback of App.tsx: `findIndex` on the updated
task's id, replace that entry when found, otherwise leave the array as is. -/
def handleUpdateTask (tasks : List Task) (updatedTask : Task) : List Task :=
  match tasks with
  | [] => []
  | t :: rest =>
    if t.id = updatedTask.id then updatedTask :: rest
    else t :: handleUpdateTask rest updatedTask

/-- The `handleDeleteTask` callback of App.tsx: `findIndex` on the id,
`splice` out that entry when found, otherwise leave the array as is. -/
def handleDeleteTask (tasks : List Task) (taskId : String) : List Task :=
  match tasks with
  | [] => []
  | t :: rest =>
    if t.id = taskId then rest
    else t :: handleDeleteTask rest taskId

/-- The `handleUpdateSprint` callback of App.tsx: `setSprint(updatedSprint)`,
a wholesale replacement with no validation of any kind. -/
def handleUpdateSprint (_current updatedSprint : Sprint) : Sprint :=
  updatedSprint

/-- One `inlineData` part of the gateway request built by
`analyzeTaskAttachments` in `src/services/geminiService.ts`. -/
structure InlinePart where
  data : String
  mimeType : String
deriving DecidableEq, Repr

/-- `file.data.split(',')[1]` with the falsy check of geminiService.ts:
`none` when there is no second segment or it is the empty string. -/
def extractBase64 (s : String) : Option String :=
  match (s.splitOn (",")).drop 1 with
  | [] => none
  | d :: _ => if d = "" then none else some d

/-- The `attachments.map(...)` of `analyzeTaskAttachments`: build the inline
parts in order, throwing (here: `Except.error` with the file name) at the
first attachment whose base64 payload is missing. -/
def buildFileParts (attachments : List Attachment) :
    Except String (List InlinePart) :=
  match attachments with
  | [] => .ok []
  | a :: rest =>
    match extractBase64 a.data with
    | none => .error a.name
    | some d =>
      match buildFileParts rest with
      | .error n => .error n
      | .ok parts => .ok ({ data := d, mimeType := a.mime } :: parts)

/-- Observable outcome of `analyzeTaskAttachments` up to the external call:
either the early fixed text returned before any gateway contact, or a
validation error thrown while building file parts, or the request that is
sent to the gateway. -/
inductive AnalyzeOutcome where
  | noAttachments (text : String)
  | invalidAttachment (fileName : String)
  | request (taskTitle : String) (parts : List InlinePart)
deriving DecidableEq, Repr

/-- `analyzeTaskAttachments` from `src/services/geminiService.ts`:
`if (attachments.length === 0) return "No attachments to analyze.";` then
build the file parts and issue the gateway request. -/
def analyzeTaskAttachments (taskTitle : String)
    (attachments : List Attachment) : AnalyzeOutcome :=
  if attachments.length = 0 then .noAttachments ("No attachments to analyze.")
  else
    match buildFileParts attachments with
    | .error n => .invalidAttachment n
    | .ok parts => .request taskTitle parts

/-- Concrete fixture: a task in the `todo` column. -/
def sampleTaskA : Task :=
  { id := "a", column := ColumnId.todo, title := "A", description := "da",
    points := some 4 }

/-- Concrete fixture: a task in the `done` column. -/
def sampleTaskB : Task :=
  { id := "b", column := ColumnId.done, title := "B", description := "db",
    points := some 6 }

/-- Concrete fixture: a task in the `backlog` column. -/
def sampleTaskC : Task :=
  { id := "c", column := ColumnId.backlog, title := "C", description := "dc",
    points := some 3 }

/-- Concrete fixture: a two-day sprint. -/
def sampleSprint : Sprint :=
  { id := "s", name := "S", startMs := 0, endMs := 2 * 86400000, goal := "g" }

/-- Concrete fixture: a sprint whose start date is after its end date. -/
def reversedSprint : Sprint :=
  { id := "s", name := "S", startMs := 86400000, endMs := 0, goal := "g" }

/-- Concrete fixture: a sprint whose start and end dates coincide. -/
def equalSprint : Sprint :=
  { id := "s", name := "S", startMs := 5, endMs := 5, goal := "g" }

theorem tasksByColumn_foldl_characterization (tasks : List Task)
    (g : ColumnId → Option (List Task)) (c : ColumnId) :
    tasks.foldl
      (fun acc task => fun c =>
        if task.column = c then some ((acc c).getD [] ++ [task]) else acc c)
      g c =
      if tasks.filter (fun t => t.column = c) = [] then g c
      else some ((g c).getD [] ++ tasks.filter (fun t => t.column = c)) := by
  induction tasks generalizing g with
  | nil => simp
  | cons t rest ih =>
    simp only [List.foldl_cons, List.filter_cons]
    by_cases htc : t.column = c
    · rw [ih]
      by_cases hrest : rest.filter (fun t => t.column = c) = []
      · simp [hrest, htc]
      · simp [hrest, htc, List.append_assoc]
    · rw [ih]
      simp [htc]

theorem tasksByColumn_eq_filter (tasks : List Task) (c : ColumnId) :
    tasksByColumn tasks c =
      if tasks.filter (fun t => t.column = c) = [] then none
      else some (tasks.filter (fun t => t.column = c)) := by
  unfold tasksByColumn
  rw [tasksByColumn_foldl_characterization]
  simp

theorem columnTasks_eq_filter (tasks : List Task) (c : ColumnId) :
    columnTasks tasks c = tasks.filter (fun t => t.column = c) := by
  unfold columnTasks
  rw [tasksByColumn_eq_filter]
  by_cases h : tasks.filter (fun t => t.column = c) = [] <;> simp [h]

/-- Claim C1 (counterexample): on the empty task sequence the board
projection has no entry at all for `backlog` — `tasksByColumn` yields
`none`, not the empty sequence the claim promises. -/
theorem tasksByColumn_missing_entry_on_empty :
    tasksByColumn ([] : List Task) ColumnId.backlog = none ∧
      tasksByColumn ([] : List Task) ColumnId.backlog ≠ some [] := by
  decide

/-- Claim C1 (amended): for every task sequence and column, the rendered
column contents `tasksByColumn[c] || []` are exactly the tasks with that
column in original order; the raw `tasksByColumn` record leaves a column
absent (`none`) precisely when no task has that column, and the view's
`|| []` default turns that absence into the empty sequence. -/
theorem board_projection_filter (tasks : List Task) (c : ColumnId) :
    columnTasks tasks c = tasks.filter (fun t => t.column = c) ∧
      (tasksByColumn tasks c = none ↔
        tasks.filter (fun t => t.column = c) = []) := by
  refine ⟨columnTasks_eq_filter tasks c, ?_⟩
  rw [tasksByColumn_eq_filter]
  by_cases h : tasks.filter (fun t => t.column = c) = [] <;> simp [h]

/-- Claim C2: for every task sequence and sprint, the burndown series has
exactly `sprintDurationDays + 1` entries and its `day` values are the
contiguous range `0 .. sprintDurationDays` in ascending order. -/
theorem burndown_days_range (tasks : List Task) (s : Sprint) :
    (burndownData tasks s).map (fun p => p.day) =
        List.range (sprintDurationDays s + 1) ∧
      (burndownData tasks s).length = sprintDurationDays s + 1 := by
  constructor
  · unfold burndownData
    rw [List.map_cons, List.map_map, List.range_succ_eq_map]
    congr 1
  · unfold burndownData
    rw [List.length_cons, List.length_map, List.length_range]

/-- Claim C10: `analyzeTaskAttachments` with an empty attachment sequence
returns the fixed text immediately, for every task title, without building
a gateway request and without a validation error. -/
theorem analyzeTaskAttachments_empty (taskTitle : String) :
    analyzeTaskAttachments taskTitle [] =
      AnalyzeOutcome.noAttachments ("No attachments to analyze.") := rfl

theorem moveTask_not_found (tasks : List Task) (tid : String) (c : ColumnId)
    (h : ∀ t ∈ tasks, t.id ≠ tid) : moveTask tasks tid c = tasks := by
  induction tasks with
  | nil => rfl
  | cons t rest ih =>
    have ht : t.id ≠ tid := h t (List.mem_cons_self t rest)
    simp only [moveTask, if_neg ht]
    rw [ih fun x hx => h x (List.mem_cons_of_mem t hx)]

theorem handleUpdateTask_not_found (tasks : List Task) (u : Task)
    (h : ∀ t ∈ tasks, t.id ≠ u.id) : handleUpdateTask tasks u = tasks := by
  induction tasks with
  | nil => rfl
  | cons t rest ih =>
    have ht : t.id ≠ u.id := h t (List.mem_cons_self t rest)
    simp only [handleUpdateTask, if_neg ht]
    rw [ih fun x hx => h x (List.mem_cons_of_mem t hx)]

theorem handleDeleteTask_not_found (tasks : List Task) (tid : String)
    (h : ∀ t ∈ tasks, t.id ≠ tid) : handleDeleteTask tasks tid = tasks := by
  induction tasks with
  | nil => rfl
  | cons t rest ih =>
    have ht : t.id ≠ tid := h t (List.mem_cons_self t rest)
    simp only [handleDeleteTask, if_neg ht]
    rw [ih fun x hx => h x (List.mem_cons_of_mem t hx)]

/-- Claim C5: a mutation referencing an id no task in the collection has is
a silent no-op for MoveTask, UpdateTask and DeleteTask: the collection is
returned unchanged (the total functions raise no error). -/
theorem mutators_unknown_id_noop (tasks : List Task) (tid : String)
    (c : ColumnId) (u : Task)
    (h : ∀ t ∈ tasks, t.id ≠ tid) (hu : u.id = tid) :
    moveTask tasks tid c = tasks ∧ handleUpdateTask tasks u = tasks ∧
      handleDeleteTask tasks tid = tasks :=
  ⟨moveTask_not_found tasks tid c h,
   handleUpdateTask_not_found tasks u (hu ▸ h),
   handleDeleteTask_not_found tasks tid h⟩

/-- Claim C5 witness: a two-task board with ids `a`, `b` and the unknown
id `zzz`. -/
theorem mutators_unknown_id_noop_witness :
    moveTask [sampleTaskA, sampleTaskB] "zzz" ColumnId.done =
        [sampleTaskA, sampleTaskB] ∧
      handleUpdateTask [sampleTaskA, sampleTaskB]
          { sampleTaskA with id := "zzz" } = [sampleTaskA, sampleTaskB] ∧
      handleDeleteTask [sampleTaskA, sampleTaskB] "zzz" =
        [sampleTaskA, sampleTaskB] :=
  mutators_unknown_id_noop [sampleTaskA, sampleTaskB] "zzz" ColumnId.done
    { sampleTaskA with id := "zzz" } (by decide) (by decide)

theorem moveTask_forall2 (tasks : List Task) (tid : String) (c : ColumnId) :
    List.Forall₂
      (fun t2 t => t2.id = t.id ∧ t2.title = t.title ∧
        t2.description = t.description ∧ t2.points = t.points ∧
        t2.attachments = t.attachments ∧
        (t2.column = t.column ∨ (t.id = tid ∧ t2.column = c)))
      (moveTask tasks tid c) tasks := by
  induction tasks with
  | nil => exact List.Forall₂.nil
  | cons t rest ih =>
    by_cases ht : t.id = tid
    · simp only [moveTask, if_pos ht]
      refine List.Forall₂.cons ⟨rfl, rfl, rfl, rfl, rfl, Or.inr ⟨ht, rfl⟩⟩ ?_
      exact List.forall₂_same.mpr fun a _ => ⟨rfl, rfl, rfl, rfl, rfl, Or.inl rfl⟩
    · simp only [moveTask, if_neg ht]
      exact List.Forall₂.cons ⟨rfl, rfl, rfl, rfl, rfl, Or.inl rfl⟩ ih

theorem moveTask_mem_moved (tasks : List Task) (tid : String) (c : ColumnId)
    (h : ∃ t ∈ tasks, t.id = tid) :
    ∃ t2 ∈ moveTask tasks tid c, t2.id = tid ∧ t2.column = c := by
  induction tasks with
  | nil => simp at h
  | cons t rest ih =>
    by_cases ht : t.id = tid
    · refine ⟨{ t with column := c }, ?_, ht, rfl⟩
      simp only [moveTask, if_pos ht]
      exact List.mem_cons_self _ _
    · obtain ⟨x, hx, hxid⟩ := h
      rcases List.mem_cons.mp hx with hEq | hx2
      · exact absurd (hEq ▸ hxid) ht
      · obtain ⟨y, hy, hyid, hycol⟩ := ih ⟨x, hx2, hxid⟩
        refine ⟨y, ?_, hyid, hycol⟩
        simp only [moveTask, if_neg ht]
        exact List.mem_cons_of_mem t hy

/-- Claim C4 (counterexample): on the board `[a: todo, b: done]`,
`MoveTask("a", done)` leaves task `a` at its original flat position, so the
`done` column of the projection reads `[a, b]` — the moved task is in the
column but NOT at its end. -/
theorem moveTask_not_appended_to_end :
    (∃ t ∈ [sampleTaskA, sampleTaskB], t.id = "a") ∧
      "a" ∈ (columnTasks (moveTask [sampleTaskA, sampleTaskB] "a"
          ColumnId.done) ColumnId.done).map Task.id ∧
      (columnTasks (moveTask [sampleTaskA, sampleTaskB] "a" ColumnId.done)
          ColumnId.done).map Task.id = ["a", "b"] ∧
      ((columnTasks (moveTask [sampleTaskA, sampleTaskB] "a" ColumnId.done)
          ColumnId.done).getLast?).map Task.id ≠ some ("a") := by
  decide

/-- Claim C4 (amended): MoveTask's only effect is the column change — every
task keeps its position, id and all other fields, and only the matching
task's column may change (to the target column); the moved task then appears
in the target column's projection at the position induced by its unchanged
index in the flat sequence (not necessarily at the end). -/
theorem moveTask_only_column_change (tasks : List Task) (tid : String)
    (c : ColumnId) (h : ∃ t ∈ tasks, t.id = tid) :
    List.Forall₂
      (fun t2 t => t2.id = t.id ∧ t2.title = t.title ∧
        t2.description = t.description ∧ t2.points = t.points ∧
        t2.attachments = t.attachments ∧
        (t2.column = t.column ∨ (t.id = tid ∧ t2.column = c)))
      (moveTask tasks tid c) tasks ∧
    ∃ t2 ∈ columnTasks (moveTask tasks tid c) c, t2.id = tid := by
  refine ⟨moveTask_forall2 tasks tid c, ?_⟩
  rw [columnTasks_eq_filter]
  obtain ⟨y, hy, hyid, hycol⟩ := moveTask_mem_moved tasks tid c h
  exact ⟨y, List.mem_filter.mpr ⟨hy, by simp [hycol]⟩, hyid⟩

/-- Claim C4 witness: moving task `a` onto the `done` column of the sample
board puts it into the `done` projection. -/
theorem moveTask_only_column_change_witness :
    ∃ t2 ∈ columnTasks (moveTask [sampleTaskA, sampleTaskB] "a"
        ColumnId.done) ColumnId.done, t2.id = "a" :=
  (moveTask_only_column_change [sampleTaskA, sampleTaskB] "a" ColumnId.done
    (by decide)).2

theorem jsTrim_empty : jsTrim ("") = "" := rfl

/-- Claim C6 (counterexample): a whitespace-only title is a non-empty string
the claim promises would be appended, yet AddTask rejects it: the collection
stays empty instead of gaining one task. -/
theorem addTask_whitespace_title_rejected :
    (" " : String) ≠ "" ∧ ("desc" : String) ≠ "" ∧
      addTask [] "id1" " " "desc" none = [] := by
  decide

/-- Claim C6 (amended): AddTask is rejected (collection unchanged) exactly
when the trimmed title or trimmed description is empty — in particular for
an empty title or description — and appends exactly one new backlog task
when both survive trimming non-empty. -/
theorem addTask_trim_validation (tasks : List Task) (newId : String)
    (title description : String) (points : Option Nat) :
    (title = "" ∨ description = "" →
        addTask tasks newId title description points = tasks) ∧
      (jsTrim title = "" ∨ jsTrim description = "" →
        addTask tasks newId title description points = tasks) ∧
      (jsTrim title ≠ "" → jsTrim description ≠ "" →
        addTask tasks newId title description points =
          tasks ++ [{ id := newId, column := ColumnId.backlog,
                      title := title, description := description,
                      points := points, attachments := [] }]) := by
  refine ⟨?_, ?_, ?_⟩
  · rintro (rfl | rfl)
    · exact if_pos (Or.inl jsTrim_empty)
    · exact if_pos (Or.inr jsTrim_empty)
  · intro h
    exact if_pos h
  · intro h1 h2
    rw [addTask, if_neg (by tauto)]
    rfl

/-- Claim C6 witness: a non-blank title and description append exactly one
task to the empty board. -/
theorem addTask_trim_validation_witness :
    addTask [] "id1" "x" "y" none =
      [{ id := "id1", column := ColumnId.backlog, title := "x",
         description := "y", points := none, attachments := [] }] := by
  have h := (addTask_trim_validation [] "id1" "x" "y" none).2.2
    (by decide) (by decide)
  simpa using h

/-- Claim C7 (counterexample): applying UpdateSprint with reversed dates
(start one day after end) does NOT give a degenerate burndown: the absolute
difference makes the duration exactly 1 and the series has exactly two
points, not the claimed single day-0 point. -/
theorem updateSprint_reversed_dates_not_degenerate :
    handleUpdateSprint sampleSprint reversedSprint = reversedSprint ∧
      reversedSprint.endMs < reversedSprint.startMs ∧
      sprintDurationDays reversedSprint = 1 ∧
      (burndownData [] reversedSprint).length = 2 := by
  refine ⟨rfl, by decide, by decide, ?_⟩
  unfold burndownData
  rw [List.length_cons, List.length_map, List.length_range]
  decide

/-- Claim C7 (amended): the UpdateSprint mutator performs no date-ordering
check — it replaces the sprint wholesale for any input. Because the duration
uses the absolute date difference, reversed dates yield the same duration as
the swapped (forward) dates; the degenerate burndown with duration 0 and a
single day-0 point arises exactly when (iff) the two dates are equal. -/
theorem updateSprint_no_validation (s u : Sprint) (tasks : List Task) :
    handleUpdateSprint s u = u ∧
      sprintDurationDays u =
        sprintDurationDays { u with startMs := u.endMs, endMs := u.startMs } ∧
      ((sprintDurationDays u = 0 ∧ (burndownData tasks u).length = 1) ↔
        u.startMs = u.endMs) := by
  refine ⟨rfl, ?_, ?_, ?_⟩
  · unfold sprintDurationDays
    rw [show u.endMs - u.startMs = -(u.startMs - u.endMs) by ring,
      Int.natAbs_neg]
  · rintro ⟨hd, -⟩
    unfold sprintDurationDays at hd
    rw [Nat.div_eq_zero_iff (by norm_num)] at hd
    have habs : (u.endMs - u.startMs).natAbs = 0 := by omega
    have : u.endMs - u.startMs = 0 := Int.natAbs_eq_zero.mp habs
    have : u.endMs = u.startMs := by linarith
    exact this.symm
  · intro h
    have hd : sprintDurationDays u = 0 := by
      unfold sprintDurationDays
      rw [h, sub_self]
      rfl
    refine ⟨hd, ?_⟩
    unfold burndownData
    rw [List.length_cons, List.length_map, List.length_range, hd]

/-- Claim C7 witness: a sprint whose start and end coincide gives duration 0
and a single-point burndown. -/
theorem updateSprint_no_validation_witness :
    sprintDurationDays equalSprint = 0 ∧
      (burndownData [] equalSprint).length = 1 :=
  (updateSprint_no_validation sampleSprint equalSprint []).2.2.mpr rfl

theorem moveTask_map_id (tasks : List Task) (tid : String) (c : ColumnId) :
    (moveTask tasks tid c).map Task.id = tasks.map Task.id := by
  induction tasks with
  | nil => rfl
  | cons t rest ih =>
    by_cases ht : t.id = tid
    · simp only [moveTask, if_pos ht, List.map_cons]
    · simp only [moveTask, if_neg ht, List.map_cons, ih]

theorem handleUpdateTask_map_id (tasks : List Task) (u : Task) :
    (handleUpdateTask tasks u).map Task.id = tasks.map Task.id := by
  induction tasks with
  | nil => rfl
  | cons t rest ih =>
    by_cases ht : t.id = u.id
    · simp [handleUpdateTask, ht]
    · simp only [handleUpdateTask, if_neg ht, List.map_cons, ih]

theorem handleDeleteTask_sublist (tasks : List Task) (tid : String) :
    (handleDeleteTask tasks tid).Sublist tasks := by
  induction tasks with
  | nil => exact List.Sublist.refl []
  | cons t rest ih =>
    by_cases ht : t.id = tid
    · simp only [handleDeleteTask, if_pos ht]
      exact List.sublist_cons_self t rest
    · simp only [handleDeleteTask, if_neg ht]
      exact ih.cons₂ t

/-- Claim C9: starting from pairwise-distinct task ids, every mutator —
MoveTask, UpdateTask, DeleteTask, and AddTask with a fresh id — yields a
collection whose ids are again pairwise distinct. -/
theorem id_uniqueness_invariant (tasks : List Task) (tid : String)
    (c : ColumnId) (u : Task) (newId : String)
    (title description : String) (points : Option Nat)
    (hnd : (tasks.map Task.id).Nodup) (hfresh : newId ∉ tasks.map Task.id) :
    ((moveTask tasks tid c).map Task.id).Nodup ∧
      ((handleUpdateTask tasks u).map Task.id).Nodup ∧
      ((handleDeleteTask tasks tid).map Task.id).Nodup ∧
      ((addTask tasks newId title description points).map Task.id).Nodup := by
  refine ⟨?_, ?_, ?_, ?_⟩
  · rw [moveTask_map_id]; exact hnd
  · rw [handleUpdateTask_map_id]; exact hnd
  · exact hnd.sublist ((handleDeleteTask_sublist tasks tid).map Task.id)
  · by_cases hrej : jsTrim title = "" ∨ jsTrim description = ""
    · rw [addTask, if_pos hrej]; exact hnd
    · rw [addTask, if_neg hrej]
      unfold handleAddTask
      rw [List.map_append, List.nodup_append]
      exact ⟨hnd, List.nodup_singleton _, by
        simpa [List.disjoint_singleton] using hfresh⟩

/-- Claim C9 witness: the sample board with distinct ids and the fresh id
`task-9`. -/
theorem id_uniqueness_invariant_witness :
    ((moveTask [sampleTaskA, sampleTaskB] "a" ColumnId.done).map
        Task.id).Nodup ∧
      ((handleUpdateTask [sampleTaskA, sampleTaskB]
          { sampleTaskA with title := "A2" }).map Task.id).Nodup ∧
      ((handleDeleteTask [sampleTaskA, sampleTaskB] "a").map Task.id).Nodup ∧
      ((addTask [sampleTaskA, sampleTaskB] "task-9" "T" "D" (some 2)).map
        Task.id).Nodup :=
  id_uniqueness_invariant [sampleTaskA, sampleTaskB] "a" ColumnId.done
    { sampleTaskA with title := "A2" } "task-9" "T" "D" (some 2)
    (by decide) (by decide)

/-- Claim C8: every entry of the burndown series with `day = 0` carries
`remaining = totalPoints` (points summed over non-backlog tasks, absent
points counted 0), and every other entry (the days `1 .. durationDays`, by
the day-range of the series) carries the constant
`remaining = totalPoints − completedPoints` (points summed over `done`
tasks) — so `remaining` never varies after day 0. -/
theorem burndown_remaining_values (tasks : List Task) (s : Sprint) :
    ∀ p ∈ burndownData tasks s,
      p.remaining =
        if p.day = 0 then (totalPoints tasks : Int)
        else (totalPoints tasks : Int) - (completedPoints tasks : Int) := by
  intro p hp
  unfold burndownData at hp
  rcases List.mem_cons.mp hp with rfl | hmem
  · simp
  · obtain ⟨k, _, rfl⟩ := List.mem_map.mp hmem
    simp

/-- Claim C8 witness: the day-0 entry of the sample board carries
`remaining = totalPoints`. -/
theorem burndown_remaining_values_witness :
    ({ day := 0,
       remaining := (totalPoints [sampleTaskA, sampleTaskB, sampleTaskC] : Int),
       ideal := (totalPoints [sampleTaskA, sampleTaskB, sampleTaskC] : ℚ) } :
        BurndownPoint).remaining =
      (totalPoints [sampleTaskA, sampleTaskB, sampleTaskC] : Int) := by
  have h := burndown_remaining_values [sampleTaskA, sampleTaskB, sampleTaskC]
    sampleSprint _ (List.mem_cons_self _ _)
  exact h

theorem idealValue_zero (tp : Nat) (ppd : ℚ) : idealValue tp ppd 0 = tp := by
  unfold idealValue
  have h1 : ((tp : ℚ) - ppd * ((0 : ℕ) : ℚ)) * 10 = ((10 * tp : ℕ) : ℚ) := by
    push_cast
    ring
  rw [h1, round_natCast]
  have h2 : (((10 * tp : ℕ) : ℤ) : ℚ) / 10 = (tp : ℚ) := by
    push_cast
    ring
  rw [h2]
  exact max_eq_right (by positivity)

theorem idealValue_antitone (tp : Nat) (ppd : ℚ) (hp : 0 ≤ ppd)
    {i j : Nat} (hij : i ≤ j) :
    idealValue tp ppd j ≤ idealValue tp ppd i := by
  unfold idealValue
  have hmul : ppd * (i : ℚ) ≤ ppd * (j : ℚ) :=
    mul_le_mul_of_nonneg_left (by exact_mod_cast hij) hp
  have hround : round (((tp : ℚ) - ppd * (j : ℚ)) * 10) ≤
      round (((tp : ℚ) - ppd * (i : ℚ)) * 10) := by
    rw [round_eq, round_eq]
    exact Int.floor_le_floor (by linarith)
  exact max_le_max le_rfl
    ((div_le_div_iff_of_pos_right (by norm_num)).mpr (Int.cast_le.mpr hround))

theorem pointsPerDay_nonneg (tasks : List Task) (d : Nat) :
    0 ≤ pointsPerDay tasks d := by
  unfold pointsPerDay
  split
  · positivity
  · exact le_refl 0

/-- Claim C3: along the burndown series (day-0 entry, whose ideal equals
`totalPoints`, included) the `ideal` values are monotonically non-increasing
— pairwise, every later entry's ideal is at most every earlier entry's —
and never negative. -/
theorem burndown_ideal_antitone_nonneg (tasks : List Task) (s : Sprint) :
    List.Pairwise (fun p q => q.ideal ≤ p.ideal) (burndownData tasks s) ∧
      ∀ p ∈ burndownData tasks s, 0 ≤ p.ideal := by
  have hppd := pointsPerDay_nonneg tasks (sprintDurationDays s)
  constructor
  · unfold burndownData
    rw [List.pairwise_cons]
    constructor
    · intro q hq
      obtain ⟨k, _, rfl⟩ := List.mem_map.mp hq
      show idealValue (totalPoints tasks)
          (pointsPerDay tasks (sprintDurationDays s)) (k + 1) ≤
        (totalPoints tasks : ℚ)
      calc idealValue (totalPoints tasks)
            (pointsPerDay tasks (sprintDurationDays s)) (k + 1) ≤
          idealValue (totalPoints tasks)
            (pointsPerDay tasks (sprintDurationDays s)) 0 :=
            idealValue_antitone _ _ hppd (Nat.zero_le _)
        _ = (totalPoints tasks : ℚ) := idealValue_zero _ _
    · rw [List.pairwise_map]
      apply List.Pairwise.imp ?_ (List.pairwise_lt_range (sprintDurationDays s))
      intro a b hab
      exact idealValue_antitone _ _ hppd (by omega)
  · intro p hp
    unfold burndownData at hp
    rcases List.mem_cons.mp hp with rfl | hmem
    · show (0 : ℚ) ≤ (totalPoints tasks : ℚ)
      positivity
    · obtain ⟨k, _, rfl⟩ := List.mem_map.mp hmem
      show (0 : ℚ) ≤ idealValue (totalPoints tasks)
        (pointsPerDay tasks (sprintDurationDays s)) (k + 1)
      unfold idealValue
      exact le_max_left 0 _

/-- Claim C3 witness: the day-0 entry of the sample board has a
non-negative ideal value. -/
theorem burndown_ideal_antitone_nonneg_witness :
    0 ≤ ({ day := 0,
           remaining := (totalPoints [sampleTaskA, sampleTaskB, sampleTaskC] : Int),
           ideal := (totalPoints [sampleTaskA, sampleTaskB, sampleTaskC] : ℚ) } :
          BurndownPoint).ideal :=
  (burndown_ideal_antitone_nonneg [sampleTaskA, sampleTaskB, sampleTaskC]
    sampleSprint).2 _ (List.mem_cons_self _ _)

end ScrumBoard
